import Mathlib

/-!
Verification of the Apar-tui profile-state synchronization engine
(src/main.rs): the aa-status output parser, the profile registry with its
selection, and the reconciliation discipline of the mutating actions.

Rust strings are modelled as `List Char` (the text is assumed already
decoded; `String.from_utf8_lossy` never fails, so the lossy decode is the
identity on the modelled text). Rust `char::is_whitespace` is modelled by
`Char.isWhitespace` (ASCII whitespace; the inputs of interest are ASCII).
External processes are modelled by an oracle: each invocation's result
(`ExecResult`) and the status tool's stdout are passed in as arguments, and
every invocation performed is recorded in an event log (`List Cmd`).
-/

/-- Rust `str::starts_with(char)`: true iff the list begins with `c`. -/
def startsWithChar (c : Char) : List Char → Bool
  | [] => false
  | d :: _ => d = c

/-- Needle is a prefix of the haystack (both as char lists). -/
def startsWithL : List Char → List Char → Bool
  | [], _ => true
  | _ :: _, [] => false
  | n :: ns, h :: hs => n = h && startsWithL ns hs

/-- Rust `str::contains(&str)`: the needle occurs as a contiguous substring. -/
def containsSub (needle : List Char) : List Char → Bool
  | [] => startsWithL needle []
  | c :: hs => startsWithL needle (c :: hs) || containsSub needle hs

/-- Rust `str::trim_end`: drop trailing whitespace. -/
def trimRightL (l : List Char) : List Char :=
  (l.reverse.dropWhile Char.isWhitespace).reverse

/-- Rust `str::trim`: drop leading and trailing whitespace. -/
def rustTrim (l : List Char) : List Char :=
  (trimRightL l).dropWhile Char.isWhitespace

/-- Remove one leading carriage return (used for the `\r\n` case of
Rust `str::lines`; the accumulator below is the current line reversed, so
the line's last character is at the head). -/
def stripLeadCR : List Char → List Char
  | '\r' :: l => l
  | l => l

/-- Worker for `rustLines`; `acc` is the current (unterminated) line,
reversed. A final line without a terminating newline is emitted as is;
an empty final segment (text ending in a newline) is not. -/
def rustLinesAux : List Char → List Char → List (List Char)
  | [], acc => if acc.isEmpty then [] else [acc.reverse]
  | c :: rest, acc =>
    if c = '\n' then (stripLeadCR acc).reverse :: rustLinesAux rest []
    else rustLinesAux rest (c :: acc)

/-- Rust `str::lines`: split at `\n` or `\r\n`, final line ending optional. -/
def rustLines (cs : List Char) : List (List Char) :=
  rustLinesAux cs []

/-- The five enforcement modes of src/main.rs `enum Mode`. -/
inductive Mode
  | Enforce
  | Complain
  | Audit
  | Disable
  | Kill
deriving DecidableEq, Repr

/-- Header phrase recognized for enforce mode. -/
def enforceHdr : List Char := "profiles are in enforce mode.".data

/-- Header phrase recognized for complain mode. -/
def complainHdr : List Char := "profiles are in complain mode.".data

/-- Header phrase recognized for kill mode. -/
def killHdr : List Char := "profiles are in kill mode.".data

/-- Header phrase recognized for audit mode. -/
def auditHdr : List Char := "profiles are in audit mode.".data

/-- The section-header test of `App::load_profiles`: the substring checks
on the end-trimmed line, in the source's order (enforce, complain, kill,
audit), returning the mode the line declares, or `none` when the line is
not recognized as a header. -/
def headerMode (line : List Char) : Option Mode :=
  let trimmed := trimRightL line
  if containsSub enforceHdr trimmed then some Mode.Enforce
  else if containsSub complainHdr trimmed then some Mode.Complain
  else if containsSub killHdr trimmed then some Mode.Kill
  else if containsSub auditHdr trimmed then some Mode.Audit
  else none

/-- The identifier test of `App::load_profiles`: `profile_line` is the
fully trimmed line; it is an identifier when non-empty and starting with
a slash or an opening brace, in which case the trimmed text is the
emitted identifier. -/
def identLine (line : List Char) : Option (List Char) :=
  let profileLine := rustTrim (trimRightL line)
  if !profileLine.isEmpty &&
      (startsWithChar '/' profileLine || startsWithChar '{' profileLine) then
    some profileLine
  else none

/-- The line scan of `App::load_profiles`: `st` is the `state` variable
(the mode currently in effect, `None` before the first header). Header
lines update `st` and emit nothing (`continue`); identifier lines emit
`(profile_line, mode)` when a mode is in effect and are dropped otherwise;
all other lines are skipped. -/
def parseLines : List (List Char) → Option Mode → List (List Char × Mode)
  | [], _ => []
  | line :: rest, st =>
    match headerMode line with
    | some m => parseLines rest (some m)
    | none =>
      match identLine line with
      | some profileLine =>
        match st with
        | some m => (profileLine, m) :: parseLines rest st
        | none => parseLines rest st
      | none => parseLines rest st

/-- The pure parsing pipeline of `App::load_profiles`: split the status
tool's stdout into lines and scan them with no mode initially in effect. -/
def parseStatus (raw : List Char) : List (List Char × Mode) :=
  parseLines (rustLines raw) none

example :
    parseStatus ("12 profiles are in enforce mode.\n   /usr/bin/foo\n3 profiles are in complain mode.\n   /usr/bin/bar\n   {structured-hash-id}\n").data =
      [("/usr/bin/foo".data, Mode.Enforce),
       ("/usr/bin/bar".data, Mode.Complain),
       ("{structured-hash-id}".data, Mode.Complain)] := by decide

/-- Outcome of one external process invocation, as seen by the Rust code:
the process ran and exited 0, it ran and exited non-zero, or it could not
be started at all (the `Command::new(..).status()/output()` call itself
returned an error). -/
inductive ExecResult
  | ok
  | nonZero
  | spawnFail
deriving DecidableEq, Repr

/-- Result of one `App` method returning `anyhow::Result<()>`: `Ok(())`,
`Err(msg)`, or a Rust panic (reachable here only through out-of-bounds
indexing or `usize` underflow, whose debug-build semantics is a panic). -/
inductive Outcome
  | ok
  | err (msg : List Char)
  | panic
deriving DecidableEq, Repr

/-- One external command invocation, for the event log. -/
inductive Cmd
  | status
  | modeTool (tool : List Char) (profile : List Char)
  | reload
  | edit (path : List Char)
deriving DecidableEq, Repr

/-- The `App` struct of src/main.rs: the profile list and the list
selection. `ratatui::ListState` also carries a scroll offset, which is
rendering-only state never read by the logic; only `selected()` is
modelled. -/
structure App where
  profiles : List (List Char × Mode)
  state : Option Nat
deriving DecidableEq, Repr

namespace App

/-- `App::new()`: empty profile list, no selection. -/
def new : App := ⟨[], none⟩

/-- `App::load_profiles`: run `aa-status` (its result is the oracle pair
`statusRes`/`statusOut`); on spawn failure or non-zero exit return the
error with the app untouched (the `clear` happens after the status
check); on success replace the profile list with the parsed stdout. The
selection (`self.state`) is never touched. The returned list logs the
invocations performed. -/
def load_profiles (a : App) (statusRes : ExecResult) (statusOut : List Char) :
    App × Outcome × List Cmd :=
  match statusRes with
  | .spawnFail => (a, .err "Failed to execute aa-status".data, [Cmd.status])
  | .nonZero => (a, .err "aa-status failed".data, [Cmd.status])
  | .ok => ({ a with profiles := parseStatus statusOut }, .ok, [Cmd.status])

/-- `App::next`: with a selection `i`, the code computes
`self.profiles.len() - 1`; on an empty list this `usize` subtraction
underflows (a panic in a debug build), modelled as `none`. Otherwise the
new index is `0` when `i >= len - 1`, else `i + 1`. With no selection the
new index is `0`, even on an empty list. -/
def next (a : App) : Option App :=
  match a.state with
  | some i =>
    if a.profiles.length = 0 then none
    else
      let j := if i ≥ a.profiles.length - 1 then 0 else i + 1
      some { a with state := some j }
  | none => some { a with state := some 0 }

/-- `App::previous`: with selection `0` the code computes
`self.profiles.len() - 1`, which underflows on an empty list (modelled as
`none`); with selection `i > 0` the new index is `i - 1`. With no
selection the new index is `0`, even on an empty list. -/
def previous (a : App) : Option App :=
  match a.state with
  | some i =>
    if i = 0 then
      if a.profiles.length = 0 then none
      else some { a with state := some (a.profiles.length - 1) }
    else some { a with state := some (i - 1) }
  | none => some { a with state := some 0 }

end App

/-- The mode → command table of `App::change_mode`; `Kill` has no command
(the match arm returns `Ok(())` directly). -/
def modeToolCmd : Mode → Option (List Char)
  | .Enforce => some "aa-enforce".data
  | .Complain => some "aa-complain".data
  | .Audit => some "aa-audit".data
  | .Disable => some "aa-disable".data
  | .Kill => none

namespace App

/-- `App::change_mode`: with no selection, do nothing and return
`Ok(())`. With selection `i`, `self.profiles[i]` is indexed first (an
out-of-bounds index panics); for `Kill` the method then returns `Ok(())`
without running anything; otherwise `sudo <tool> <profile>` runs (result
`cmdRes`): spawn failure and non-zero exit return errors without touching
the app, and exit 0 runs `load_profiles` (whose aa-status oracle is
`statusRes`/`statusOut`). -/
def change_mode (a : App) (m : Mode) (cmdRes : ExecResult)
    (statusRes : ExecResult) (statusOut : List Char) :
    App × Outcome × List Cmd :=
  match a.state with
  | none => (a, .ok, [])
  | some i =>
    match a.profiles.get? i with
    | none => (a, .panic, [])
    | some (profile, _) =>
      match modeToolCmd m with
      | none => (a, .ok, [])
      | some cmd =>
        match cmdRes with
        | .spawnFail =>
          (a, .err ("Failed to execute ".data ++ cmd), [Cmd.modeTool cmd profile])
        | .nonZero =>
          (a, .err ("Command failed: ".data ++ cmd), [Cmd.modeTool cmd profile])
        | .ok =>
          match load_profiles a statusRes statusOut with
          | (a2, o, log) => (a2, o, Cmd.modeTool cmd profile :: log)

/-- `App::reload_all`: run `sudo systemctl reload apparmor` (result
`reloadRes`). Spawn failure is returned as an error; exit 0 triggers
`load_profiles`; a non-zero exit skips the reload of the list and the
method still returns `Ok(())`. -/
def reload_all (a : App) (reloadRes : ExecResult)
    (statusRes : ExecResult) (statusOut : List Char) :
    App × Outcome × List Cmd :=
  match reloadRes with
  | .spawnFail => (a, .err "Failed to reload apparmor".data, [Cmd.reload])
  | .nonZero => (a, .ok, [Cmd.reload])
  | .ok =>
    match load_profiles a statusRes statusOut with
    | (a2, o, log) => (a2, o, Cmd.reload :: log)

end App

/-- The filename derivation of `App::edit_profile`: an identifier starting
with a slash loses its first character (one byte in the Rust slicing
`profile[1..]`, and the slash is one byte) and has every remaining slash
replaced by a dot (`replace('/', ".")`); any other identifier is used
unmodified. -/
def deriveFile (profile : List Char) : List Char :=
  match profile with
  | '/' :: rest => rest.map fun c => if c = '/' then '.' else c
  | p => p

/-- The edited path of `App::edit_profile`:
`format!("/etc/apparmor.d/{}", file)`. -/
def derivePath (profile : List Char) : List Char :=
  "/etc/apparmor.d/".data ++ deriveFile profile

namespace App

/-- `App::edit_profile`: with no selection, do nothing and return
`Ok(())`. With selection `i`, `self.profiles[i]` is indexed (out of
bounds panics), the path is derived, and `sudo vim <path>` runs (result
`editRes`): spawn failure is an error (plain `?`, no context message —
modelled with the literal io-error text left abstract as an empty
message), exit 0 triggers `reload_all`, non-zero exit returns `Ok(())`. -/
def edit_profile (a : App) (editRes : ExecResult) (reloadRes : ExecResult)
    (statusRes : ExecResult) (statusOut : List Char) :
    App × Outcome × List Cmd :=
  match a.state with
  | none => (a, .ok, [])
  | some i =>
    match a.profiles.get? i with
    | none => (a, .panic, [])
    | some (profile, _) =>
      let path := derivePath profile
      match editRes with
      | .spawnFail => (a, .err [], [Cmd.edit path])
      | .nonZero => (a, .ok, [Cmd.edit path])
      | .ok =>
        match reload_all a reloadRes statusRes statusOut with
        | (a2, o, log) => (a2, o, Cmd.edit path :: log)

end App

/-- Effect of one line on the mode in effect: a header line declares its
mode, any other line leaves the mode unchanged. -/
def headerStep (st : Option Mode) (line : List Char) : Option Mode :=
  match headerMode line with
  | some m => some m
  | none => st

/-- Mode declared by the nearest header at or after the start of `lines`,
scanning left to right from the ambient mode `st` (so the last header of
`lines` wins). -/
def lastHeaderFrom (st : Option Mode) (lines : List (List Char)) : Option Mode :=
  lines.foldl headerStep st

/-- A line that is classified as an identifier line by the scan: it is
not recognized as a header, and its trimmed content is non-empty and
starts with a slash or an opening brace. -/
def isIdentLine (line : List Char) : Bool :=
  (headerMode line).isNone && (identLine line).isSome

/-- Specification-side description of the parse, written from the spec's
words: every identifier line is emitted, in input order, with the mode
declared by the nearest header line preceding it (position `i` looks back
at `lines.take i`, starting from the ambient mode `st`); an identifier
line whose look-back finds no header is dropped. -/
def parseSpecFrom (st : Option Mode) (lines : List (List Char)) :
    List (List Char × Mode) :=
  (List.range lines.length).filterMap fun i =>
    match lines.get? i with
    | none => none
    | some line =>
      if isIdentLine line then
        match lastHeaderFrom st (lines.take i) with
        | some m => some (rustTrim (trimRightL line), m)
        | none => none
      else none

/-- Specification-side parse with no mode in effect initially: an
identifier line before the first header is dropped. -/
def parseSpec (lines : List (List Char)) : List (List Char × Mode) :=
  parseSpecFrom none lines

theorem identLine_some {line p : List Char} (h : identLine line = some p) :
    p = rustTrim (trimRightL line) := by
  simp only [identLine] at h
  split at h
  · exact (Option.some.injEq _ _ ▸ h).symm
  · exact absurd h (Option.noConfusion)

theorem parseSpecFrom_cons (st : Option Mode) (line : List Char)
    (rest : List (List Char)) :
    parseSpecFrom st (line :: rest) =
      (if isIdentLine line then
         match st with
         | some m => [(rustTrim (trimRightL line), m)]
         | none => []
       else []) ++ parseSpecFrom (headerStep st line) rest := by
  unfold parseSpecFrom
  rw [List.length_cons, List.range_succ_eq_map, List.filterMap_cons,
    List.filterMap_map]
  have hfun : ((fun i =>
      match (line :: rest).get? i with
      | none => none
      | some l =>
        if isIdentLine l then
          match lastHeaderFrom st ((line :: rest).take i) with
          | some m => some (rustTrim (trimRightL l), m)
          | none => none
        else none) ∘ Nat.succ) =
      (fun i =>
      match rest.get? i with
      | none => none
      | some l =>
        if isIdentLine l then
          match lastHeaderFrom (headerStep st line) (rest.take i) with
          | some m => some (rustTrim (trimRightL l), m)
          | none => none
        else none) := by
    funext i
    simp only [Function.comp, List.get?_cons_succ, List.take_succ_cons,
      lastHeaderFrom, List.foldl_cons]
  rw [hfun]
  cases hid : isIdentLine line <;> cases st <;>
    simp [hid, lastHeaderFrom, List.get?_cons_zero, List.take_zero]

theorem parseLines_eq_parseSpecFrom (lines : List (List Char)) :
    ∀ st, parseLines lines st = parseSpecFrom st lines := by
  induction lines with
  | nil => intro st; rfl
  | cons line rest ih =>
    intro st
    rw [parseSpecFrom_cons]
    cases hh : headerMode line with
    | some m =>
      have hid : isIdentLine line = false := by simp [isIdentLine, hh]
      simp [parseLines, hh, hid, headerStep, ih]
    | none =>
      cases hi : identLine line with
      | some p =>
        have hid : isIdentLine line = true := by simp [isIdentLine, hh, hi]
        have hp : p = rustTrim (trimRightL line) := identLine_some hi
        cases st <;> simp [parseLines, hh, hi, hid, headerStep, ih, hp]
      | none =>
        have hid : isIdentLine line = false := by simp [isIdentLine, hi]
        cases st <;> simp [parseLines, hh, hi, hid, headerStep, ih]

/-- C1 counterexample: in the input whose two lines are
"profiles are in enforce mode." and "/x profiles are in kill mode.", the
second line's trimmed content starts with a slash (so the claim calls it
an identifier line) and a header line declaring enforce mode precedes it,
yet the parse emits no Profile at all: the line also contains the kill
header phrase and is consumed as a section header. -/
theorem parse_identifier_header_overlap_cex :
    startsWithChar '/'
        (rustTrim (trimRightL "/x profiles are in kill mode.".data)) = true ∧
    headerMode "profiles are in enforce mode.".data = some Mode.Enforce ∧
    rustLines "profiles are in enforce mode.\n/x profiles are in kill mode.\n".data =
      ["profiles are in enforce mode.".data, "/x profiles are in kill mode.".data] ∧
    parseStatus "profiles are in enforce mode.\n/x profiles are in kill mode.\n".data =
      [] := by decide

/-- C1 (amended): for every raw status text, the parse performed by
load_profiles emits, in input order, exactly the identifier lines that are
not themselves recognized as section headers (trimmed content non-empty,
starting with a slash or an opening brace, containing no header phrase),
each paired with the mode declared by the nearest section-header line
preceding it in the input; an identifier line with no preceding header
produces no Profile. A line whose trimmed content starts with a slash or
brace but which contains a header phrase is consumed as a header and never
emits a Profile. -/
theorem parseStatus_eq_parseSpec (raw : List Char) :
    parseStatus raw = parseSpec (rustLines raw) :=
  parseLines_eq_parseSpecFrom (rustLines raw) none

/-- C9: parsing is idempotent — the profile list is cleared and rebuilt on
every load, so a second successful load over the same raw text yields an
identical App (same ordered profile sequence, same selection), identical
outcome, and the same event log; nothing is appended. -/
theorem parse_idempotent (a : App) (statusOut : List Char) :
    App.load_profiles (App.load_profiles a .ok statusOut).1 .ok statusOut =
      App.load_profiles a .ok statusOut := rfl

/-- C7: edit path derivation — an identifier starting with a slash loses
the leading slash and has every remaining slash replaced by a dot before
the policy directory root is prefixed; an identifier starting with an
opening brace is appended to the root unmodified; in particular the two
examples of the spec hold. -/
theorem edit_path_derivation :
    (∀ rest : List Char,
      derivePath ('/' :: rest) =
        "/etc/apparmor.d/".data ++
          rest.map (fun c => if c = '/' then '.' else c)) ∧
    (∀ rest : List Char,
      derivePath ('{' :: rest) = "/etc/apparmor.d/".data ++ '{' :: rest) ∧
    derivePath "/usr/bin/foo".data = "/etc/apparmor.d/usr.bin.foo".data ∧
    derivePath "{structured-hash-id}".data =
      "/etc/apparmor.d/{structured-hash-id}".data := by
  refine ⟨fun rest => rfl, fun rest => ?_, by decide, by decide⟩
  simp [derivePath, deriveFile]

/-- C10: with no selection, change_mode (for every requested mode and any
behavior of the external oracle) and edit_profile invoke no external
command (empty event log), leave the profile sequence and the selection
unchanged, and return success. -/
theorem no_selection_noop (ps : List (List Char × Mode)) (m : Mode)
    (cmdRes statusRes editRes reloadRes : ExecResult) (statusOut : List Char) :
    App.change_mode ⟨ps, none⟩ m cmdRes statusRes statusOut =
      (⟨ps, none⟩, .ok, []) ∧
    App.edit_profile ⟨ps, none⟩ editRes reloadRes statusRes statusOut =
      (⟨ps, none⟩, .ok, []) :=
  ⟨rfl, rfl⟩

/-- C4: for every selected profile and every requested mode that has an
external command, when that command exits non-zero, change_mode reports
the failure as an error, invokes nothing further (in particular aa-status
is never run, so no reconciliation happens), and leaves the profile
sequence and the selection exactly as they were. -/
theorem change_mode_failure_no_reconcile (a : App) (m : Mode) (i : Nat)
    (profile : List Char × Mode) (cmd : List Char)
    (statusRes : ExecResult) (statusOut : List Char)
    (hsel : a.state = some i) (hget : a.profiles.get? i = some profile)
    (hcmd : modeToolCmd m = some cmd) :
    App.change_mode a m .nonZero statusRes statusOut =
      (a, .err ("Command failed: ".data ++ cmd), [Cmd.modeTool cmd profile.1]) := by
  obtain ⟨pname, pmode⟩ := profile
  obtain ⟨ps, st⟩ := a
  change st = some i at hsel
  subst hsel
  change ps.get? i = some (pname, pmode) at hget
  rw [List.get?_eq_getElem?] at hget
  simp [App.change_mode, hget, hcmd]

/-- Witness for C4 at a concrete registry, selection, and mode. -/
theorem change_mode_failure_no_reconcile_witness :
    App.change_mode ⟨[("/usr/bin/foo".data, Mode.Enforce)], some 0⟩
        Mode.Complain .nonZero .ok [] =
      (⟨[("/usr/bin/foo".data, Mode.Enforce)], some 0⟩,
        .err ("Command failed: ".data ++ "aa-complain".data),
        [Cmd.modeTool "aa-complain".data "/usr/bin/foo".data]) :=
  change_mode_failure_no_reconcile _ Mode.Complain 0
    ("/usr/bin/foo".data, Mode.Enforce) "aa-complain".data .ok [] rfl rfl rfl

/-- C5: for every selected profile and every requested mode with an
external command, when that command exits 0, change_mode performs exactly
one reconciliation — the event log records the mode tool followed by a
single aa-status invocation — and, when the status query succeeds, the
profile sequence is wholly replaced by the newly parsed snapshot
(`parseStatus statusOut`, independent of the requested mode, so a stored
mode is never locally flipped) while the selection is left as it was. -/
theorem change_mode_success_one_reconcile (a : App) (m : Mode) (i : Nat)
    (profile : List Char × Mode) (cmd : List Char)
    (statusRes : ExecResult) (statusOut : List Char)
    (hsel : a.state = some i) (hget : a.profiles.get? i = some profile)
    (hcmd : modeToolCmd m = some cmd) :
    App.change_mode a m .ok statusRes statusOut =
      ((App.load_profiles a statusRes statusOut).1,
        (App.load_profiles a statusRes statusOut).2.1,
        [Cmd.modeTool cmd profile.1, Cmd.status]) ∧
    App.change_mode a m .ok .ok statusOut =
      ({ a with profiles := parseStatus statusOut }, .ok,
        [Cmd.modeTool cmd profile.1, Cmd.status]) := by
  obtain ⟨pname, pmode⟩ := profile
  obtain ⟨ps, st⟩ := a
  change st = some i at hsel
  subst hsel
  change ps.get? i = some (pname, pmode) at hget
  rw [List.get?_eq_getElem?] at hget
  constructor
  · cases statusRes <;>
      simp [App.change_mode, App.load_profiles, hget, hcmd]
  · simp [App.change_mode, App.load_profiles, hget, hcmd]

/-- Witness for C5: after a successful aa-complain on the selected
profile, the registry holds the freshly parsed snapshot (here a single
kill-mode profile, unrelated to the requested complain mode) and the log
shows exactly one aa-status call. -/
theorem change_mode_success_one_reconcile_witness :
    App.change_mode ⟨[("/usr/bin/foo".data, Mode.Enforce)], some 0⟩
        Mode.Complain .ok .ok "profiles are in kill mode.\n/k\n".data =
      (⟨[("/k".data, Mode.Kill)], some 0⟩, .ok,
        [Cmd.modeTool "aa-complain".data "/usr/bin/foo".data, Cmd.status]) := by
  have h := (change_mode_success_one_reconcile
    ⟨[("/usr/bin/foo".data, Mode.Enforce)], some 0⟩ Mode.Complain 0
    ("/usr/bin/foo".data, Mode.Enforce) "aa-complain".data .ok
    "profiles are in kill mode.\n/k\n".data rfl rfl rfl).2
  rw [h]
  decide

/-- C2 counterexample: a reconciliation (load_profiles) whose successful
status query parses to an empty sequence replaces the registry with the
empty sequence but leaves the selection at index 0 instead of clearing it
to None. -/
theorem load_empty_keeps_selection_cex :
    (App.load_profiles ⟨[("/usr/bin/foo".data, Mode.Enforce)], some 0⟩
        .ok []).1 = ⟨[], some 0⟩ ∧
    (App.mk [] (some 0)).state ≠ none :=
  ⟨rfl, by simp⟩

/-- C2 (amended): load_profiles always leaves the selected index exactly
as it was while replacing the sequence, so the invariant is not restored
after a reconciliation that empties (or shrinks past the selection) the
sequence; the invariant is, however, preserved by the navigation
operations: on a non-empty registry, next always produces a selected
index below the length, and previous does so whenever the prior selection
was in range. -/
theorem registry_invariant_amended :
    (∀ (a : App) (sr : ExecResult) (out : List Char),
        ((App.load_profiles a sr out).1).state = a.state) ∧
    (∀ (ps : List (List Char × Mode)) (st : Option Nat), 0 < ps.length →
        ∃ j, App.next ⟨ps, st⟩ = some ⟨ps, some j⟩ ∧ j < ps.length) ∧
    (∀ (ps : List (List Char × Mode)) (st : Option Nat), 0 < ps.length →
        (∀ i, st = some i → i < ps.length) →
        ∃ j, App.previous ⟨ps, st⟩ = some ⟨ps, some j⟩ ∧ j < ps.length) := by
  refine ⟨fun a sr out => ?_, fun ps st h => ?_, fun ps st h hinv => ?_⟩
  · cases sr <;> rfl
  · cases st with
    | none => exact ⟨0, rfl, h⟩
    | some i =>
      show ∃ j,
        (if ps.length = 0 then none
         else some (App.mk ps (some (if i ≥ ps.length - 1 then 0 else i + 1)))) =
          some ⟨ps, some j⟩ ∧ j < ps.length
      rw [if_neg (by omega)]
      exact ⟨_, rfl, by split <;> omega⟩
  · cases st with
    | none => exact ⟨0, rfl, h⟩
    | some i =>
      have hi : i < ps.length := hinv i rfl
      show ∃ j,
        (if i = 0 then
           if ps.length = 0 then none
           else some (App.mk ps (some (ps.length - 1)))
         else some (App.mk ps (some (i - 1)))) =
          some ⟨ps, some j⟩ ∧ j < ps.length
      by_cases h0 : i = 0
      · subst h0
        rw [if_pos rfl, if_neg (by omega)]
        exact ⟨_, rfl, by omega⟩
      · rw [if_neg h0]
        exact ⟨_, rfl, by omega⟩

/-- Witness for C2 (amended) on a one-element registry with selection 0:
the selection survives a load untouched, and both navigation moves stay
in range. -/
theorem registry_invariant_amended_witness :
    ((App.load_profiles ⟨[("/a".data, Mode.Enforce)], some 0⟩ .ok []).1).state =
      some 0 ∧
    (∃ j, App.next ⟨[("/a".data, Mode.Enforce)], some 0⟩ =
        some ⟨[("/a".data, Mode.Enforce)], some j⟩ ∧ j < 1) ∧
    (∃ j, App.previous ⟨[("/a".data, Mode.Enforce)], some 0⟩ =
        some ⟨[("/a".data, Mode.Enforce)], some j⟩ ∧ j < 1) :=
  ⟨registry_invariant_amended.1 _ .ok [],
   registry_invariant_amended.2.1 _ (some 0) (by decide),
   registry_invariant_amended.2.2 _ (some 0) (by decide)
     (fun i hi => by injection hi with h; subst h; decide)⟩

/-- C3 counterexample: on an empty registry with no selection, next and
previous are not no-ops — both set the selection to index 0. -/
theorem next_empty_selects_zero_cex :
    App.next ⟨[], none⟩ = some ⟨[], some 0⟩ ∧
    App.previous ⟨[], none⟩ = some ⟨[], some 0⟩ ∧
    App.next ⟨[], none⟩ ≠ some ⟨[], none⟩ := by decide

/-- C3 (amended): on a non-empty registry of length N, next from index
N−1 cycles to 0 and previous from index 0 cycles to N−1; on an empty
registry the operations are not guarded no-ops: with no selection both
set the selection to index 0, next with any selection present hits the
usize underflow of length − 1 (a panic, modelled as none), previous with
selection 0 likewise, and previous with a selection i+1 moves it to i. -/
theorem cyclic_navigation_amended :
    (∀ (ps : List (List Char × Mode)) (i : Nat), ps.length ≠ 0 →
        i = ps.length - 1 →
        App.next ⟨ps, some i⟩ = some ⟨ps, some 0⟩) ∧
    (∀ ps : List (List Char × Mode), ps.length ≠ 0 →
        App.previous ⟨ps, some 0⟩ = some ⟨ps, some (ps.length - 1)⟩) ∧
    (∀ ps : List (List Char × Mode),
        App.next ⟨ps, none⟩ = some ⟨ps, some 0⟩ ∧
        App.previous ⟨ps, none⟩ = some ⟨ps, some 0⟩) ∧
    (∀ i, App.next ⟨[], some i⟩ = none) ∧
    App.previous ⟨[], some 0⟩ = none ∧
    (∀ i, App.previous ⟨[], some (i + 1)⟩ = some ⟨[], some i⟩) := by
  refine ⟨fun ps i hlen hi => ?_, fun ps hlen => ?_,
    fun ps => ⟨rfl, rfl⟩, fun i => rfl, rfl, fun i => ?_⟩
  · show (if ps.length = 0 then none
        else some (App.mk ps (some (if i ≥ ps.length - 1 then 0 else i + 1)))) =
      some ⟨ps, some 0⟩
    rw [if_neg hlen, if_pos (by omega)]
  · show (if (0 : Nat) = 0 then
        if ps.length = 0 then none
        else some (App.mk ps (some (ps.length - 1)))
      else some (App.mk ps (some (0 - 1)))) =
      some ⟨ps, some (ps.length - 1)⟩
    rw [if_pos rfl, if_neg hlen]
  · show (if i + 1 = 0 then
        if ([] : List (List Char × Mode)).length = 0 then none
        else some (App.mk [] (some (([] : List (List Char × Mode)).length - 1)))
      else some (App.mk [] (some (i + 1 - 1)))) =
      some ⟨[], some i⟩
    rw [if_neg (by omega), Nat.add_sub_cancel]

/-- Witness for C3 (amended) on a two-element registry: next from index 1
wraps to 0 and previous from index 0 wraps to 1; previous on an empty
registry with selection 3 moves to 2. -/
theorem cyclic_navigation_amended_witness :
    App.next ⟨[("/a".data, Mode.Enforce), ("/b".data, Mode.Kill)], some 1⟩ =
      some ⟨[("/a".data, Mode.Enforce), ("/b".data, Mode.Kill)], some 0⟩ ∧
    App.previous ⟨[("/a".data, Mode.Enforce), ("/b".data, Mode.Kill)], some 0⟩ =
      some ⟨[("/a".data, Mode.Enforce), ("/b".data, Mode.Kill)], some 1⟩ ∧
    App.previous ⟨[], some 3⟩ = some ⟨[], some 2⟩ :=
  ⟨cyclic_navigation_amended.1 _ 1 (by decide) (by decide),
   cyclic_navigation_amended.2.1 _ (by decide),
   cyclic_navigation_amended.2.2.2.2.2 2⟩

/-- C6 counterexample: when the service-reload command exits with non-zero
status, reload_all reports success (Ok) to its caller — the failure is not
surfaced — while performing no reconciliation. -/
theorem reload_nonzero_reports_ok_cex :
    App.reload_all ⟨[("/a".data, Mode.Enforce)], some 0⟩ .nonZero .ok [] =
      (⟨[("/a".data, Mode.Enforce)], some 0⟩, Outcome.ok, [Cmd.reload]) := rfl

/-- C6 (amended): every invocation yields one of the three outcomes
(success, failed to start, non-zero exit), but only failure-to-start is
surfaced by reload_all: a non-zero exit of the reload command is reported
as success (with no reconciliation and the registry untouched), and
edit_profile likewise reports success on a non-zero editor exit. The
status query itself surfaces both failure kinds as errors, and exit 0 of
the reload command triggers the reconciliation. -/
theorem command_outcomes_amended :
    (∀ (a : App) (sr : ExecResult) (out : List Char),
      App.reload_all a .spawnFail sr out =
        (a, .err "Failed to reload apparmor".data, [Cmd.reload]) ∧
      App.reload_all a .nonZero sr out = (a, .ok, [Cmd.reload]) ∧
      App.reload_all a .ok sr out =
        ((App.load_profiles a sr out).1, (App.load_profiles a sr out).2.1,
          Cmd.reload :: (App.load_profiles a sr out).2.2)) ∧
    (∀ (a : App) (out : List Char),
      App.load_profiles a .spawnFail out =
        (a, .err "Failed to execute aa-status".data, [Cmd.status]) ∧
      App.load_profiles a .nonZero out =
        (a, .err "aa-status failed".data, [Cmd.status])) ∧
    (∀ (ps : List (List Char × Mode)) (p : List Char × Mode)
        (rr sr : ExecResult) (out : List Char),
      App.edit_profile ⟨p :: ps, some 0⟩ .nonZero rr sr out =
        (⟨p :: ps, some 0⟩, .ok, [Cmd.edit (derivePath p.1)])) := by
  refine ⟨fun a sr out => ⟨rfl, rfl, ?_⟩, fun a out => ⟨rfl, rfl⟩,
    fun ps p rr sr out => ?_⟩
  · cases sr <;> rfl
  · obtain ⟨pname, pmode⟩ := p
    rfl

/-- C8 counterexample: a line containing two header phrases is not
recognized as the bare later phrase would be — the line below contains the
complain phrase, yet it sets enforce mode (the first matching check in the
source's order wins), while the bare complain phrase sets complain mode. -/
theorem header_two_phrases_cex :
    containsSub complainHdr
      (trimRightL
        "profiles are in enforce mode. 0 profiles are in complain mode.".data) =
      true ∧
    headerMode
      "profiles are in enforce mode. 0 profiles are in complain mode.".data =
      some Mode.Enforce ∧
    headerMode "profiles are in complain mode.".data = some Mode.Complain := by
  decide

/-- C8 (amended): header recognition is by substring containment with a
fixed priority order (enforce, complain, kill, audit): a line containing
a header phrase is recognized as a header declaring the mode of the first
contained phrase in that order — hence exactly as the bare phrase would be
whenever it contains no earlier-checked phrase (e.g. a line
"3 profiles are in enforce mode." sets enforce mode) — and a line
recognized as a header sets the current mode and never itself produces a
Profile entry. -/
theorem header_substring_amended :
    (∀ line : List Char, containsSub enforceHdr (trimRightL line) = true →
        headerMode line = some Mode.Enforce) ∧
    (∀ line : List Char, containsSub complainHdr (trimRightL line) = true →
        containsSub enforceHdr (trimRightL line) = false →
        headerMode line = some Mode.Complain) ∧
    (∀ line : List Char, containsSub killHdr (trimRightL line) = true →
        containsSub enforceHdr (trimRightL line) = false →
        containsSub complainHdr (trimRightL line) = false →
        headerMode line = some Mode.Kill) ∧
    (∀ line : List Char, containsSub auditHdr (trimRightL line) = true →
        containsSub enforceHdr (trimRightL line) = false →
        containsSub complainHdr (trimRightL line) = false →
        containsSub killHdr (trimRightL line) = false →
        headerMode line = some Mode.Audit) ∧
    (∀ (line : List Char) (m : Mode) (rest : List (List Char))
        (st : Option Mode), headerMode line = some m →
        parseLines (line :: rest) st = parseLines rest (some m)) := by
  refine ⟨fun line h1 => ?_, fun line h1 h2 => ?_, fun line h1 h2 h3 => ?_,
    fun line h1 h2 h3 h4 => ?_, fun line m rest st h => ?_⟩
  · simp [headerMode, h1]
  · simp [headerMode, h1, h2]
  · simp [headerMode, h1, h2, h3]
  · simp [headerMode, h1, h2, h3, h4]
  · simp [parseLines, h]

/-- Witness for C8 (amended): header lines with surrounding count text are
recognized exactly as the bare phrases, one instance per mode, and a
header line emits no Profile while setting the mode for what follows. -/
theorem header_substring_amended_witness :
    headerMode "3 profiles are in enforce mode.".data = some Mode.Enforce ∧
    headerMode "5 profiles are in complain mode.".data = some Mode.Complain ∧
    headerMode "2 profiles are in kill mode.".data = some Mode.Kill ∧
    headerMode "4 profiles are in audit mode.".data = some Mode.Audit ∧
    parseLines ["3 profiles are in enforce mode.".data, "/a".data] none =
      parseLines ["/a".data] (some Mode.Enforce) :=
  ⟨header_substring_amended.1 _ (by decide),
   header_substring_amended.2.1 _ (by decide) (by decide),
   header_substring_amended.2.2.1 _ (by decide) (by decide) (by decide),
   header_substring_amended.2.2.2.1 _ (by decide) (by decide) (by decide)
     (by decide),
   header_substring_amended.2.2.2.2 _ Mode.Enforce _ none
     (header_substring_amended.1 _ (by decide))⟩
